import Mathlib

/-!
Verification of the render orchestration and stroke-composition pipeline of
`internal/storage/exporter/render.go` (rmfakecloud exporter).

The Go code is shallowly embedded: readers are byte lists, the external scene
decoder (`v6.SceneReader.ExtractScene`) is a function parameter, the pdf canvas
(`fpdf`) is modelled as the list of style/draw commands issued to it, and the
side effects performed on the input reader and the output writer are recorded
as explicit event traces.  Machine floats become exact rationals; the claims
under study are structural (which width, which transform, which order), not
about rounding.

`DeviceWidth`/`DeviceHeight` are package constants defined outside the
provided source slice; following the spec (which calls them the fixed page
dimensions), they appear as parameters `dw`/`dh` of the embedded functions,
so every theorem quantifies over them and in particular holds at the actual
constants.
-/

namespace RmRender

/-- Bytes are never interpreted by this code, so plain naturals suffice. -/
abbrev Byte := Nat

/-- Error values.  `eof` / `unexpectedEOF` are the short-read errors of
`io.ReadFull`; `msg` is `errors.New`; `decode` stands for opaque errors of the
external scene decoder; `wrap` is the result of `fmt.Errorf("... %w", err)`,
i.e. a new error holding the old one as its cause. -/
inductive Err where
  | eof
  | unexpectedEOF
  | msg (s : String)
  | decode (s : String)
  | wrap (s : String) (cause : Err)
deriving DecidableEq, Repr

/-- The spec's `TruncatedInput` category: the error with which ingestion fails
on a short preamble read.  `io.ReadFull` reports a short read as `io.EOF`
(nothing read) or `io.ErrUnexpectedEOF` (some bytes read). -/
def Err.isTruncatedInput (e : Err) : Prop :=
  e = Err.eof ∨ e = Err.unexpectedEOF

instance (e : Err) : Decidable e.isTruncatedInput := by
  unfold Err.isTruncatedInput; infer_instance

/-- `v6.PenPoint`: page-local coordinates, width and pressure. -/
structure PenPoint where
  x : ℚ
  y : ℚ
  width : ℚ
  pressure : ℚ
deriving DecidableEq, Repr

/-- One stroke; in the Go structures the point list sits at
`line.Line.Value.Points`. -/
structure Line where
  points : List PenPoint
deriving DecidableEq, Repr

/-- A layer is an ordered list of lines. -/
structure Layer where
  lines : List Line
deriving DecidableEq, Repr

/-- The decoded scene: ordered layers. -/
structure Scene where
  layers : List Layer
deriving DecidableEq, Repr

/-- Commands issued to the `fpdf` canvas by the composition loop:
`pdf.SetLineWidth` and `pdf.Line`. -/
inductive PdfCmd where
  | setLineWidth (w : ℚ)
  | line (x y dx dy : ℚ)
deriving DecidableEq, Repr

/-- The body of the triple loop in `parseSceneFile`, with the `lastPoint`
state threaded explicitly: for each point, if a previous point exists, emit
`SetLineWidth(point.Width * fac / 5)` (with `fac = 1.0`, the pressure-based
factor being commented out) and `Line` on the two points shifted by
`DeviceWidth/2` in x; then the current point becomes `lastPoint`. -/
def composeLineAux (dw : ℚ) : Option PenPoint → List PenPoint → List PdfCmd
  | _, [] => []
  | none, point :: rest => composeLineAux dw (some point) rest
  | some lastPoint, point :: rest =>
    let w := point.width
    let fac : ℚ := 1
    PdfCmd.setLineWidth (w * fac / 5) ::
    PdfCmd.line (lastPoint.x + dw / 2) lastPoint.y (point.x + dw / 2) point.y ::
    composeLineAux dw (some point) rest

/-- The per-line loop: `lastPoint` starts as `nil`. -/
def composeLine (dw : ℚ) (pts : List PenPoint) : List PdfCmd :=
  composeLineAux dw none pts

/-- The per-layer loop over `layer.Lines`. -/
def composeLayer (dw : ℚ) (layer : Layer) : List PdfCmd :=
  layer.lines.flatMap fun l => composeLine dw l.points

/-- The loop over `scene.Layers`. -/
def composeScene (dw : ℚ) (scene : Scene) : List PdfCmd :=
  scene.layers.flatMap fun layer => composeLayer dw layer

/-- The `fpdf` document built by `parseSceneFile`: page size from
`fpdf.NewCustom`, the globally set cap/join styles, and the accumulated
command list. -/
structure Pdf where
  sizeWd : ℚ
  sizeHt : ℚ
  capStyle : String
  joinStyle : String
  cmds : List PdfCmd
deriving DecidableEq, Repr

/-- `headerLength := 0x2b` in `parseSceneFile`. -/
def headerLength : Nat := 0x2b

/-- `io.ReadFull(file, buffer)` with `len(buffer) = n` over an input stream
given as the list of its remaining bytes: on success the read bytes and the
rest; on a short read `io.EOF` when nothing could be read, else
`io.ErrUnexpectedEOF`. -/
def readFull (n : Nat) (input : List Byte) : Except Err (List Byte × List Byte) :=
  if input.length < n then
    Except.error (if input.length = 0 then Err.eof else Err.unexpectedEOF)
  else
    Except.ok (input.take n, input.drop n)

/-- Operations `parseSceneFile` and its callees perform on the input reader.
`read n` is the `io.ReadFull` request of `n` bytes; `readRest` stands for the
external decoder consuming the remainder (it receives the reader as a plain
`io.Reader`, which has no `Close`). -/
inductive ReaderEvent where
  | read (n : Nat)
  | readRest
  | close
deriving DecidableEq, Repr

/-- `parseSceneFile`: read and discard the 43-byte preamble, hand the
remainder to the external decoder, then build the pdf and run the composition
loops.  Returns the result together with the trace of reader operations. -/
def parseSceneFile (extractScene : List Byte → Except Err Scene)
    (dw dh : ℚ) (file : List Byte) : Except Err Pdf × List ReaderEvent :=
  match readFull headerLength file with
  | Except.error e => (Except.error e, [ReaderEvent.read headerLength])
  | Except.ok (_buffer, rest) =>
    match extractScene rest with
    | Except.error e =>
      (Except.error e, [ReaderEvent.read headerLength, ReaderEvent.readRest])
    | Except.ok scene =>
      (Except.ok
        { sizeWd := dw, sizeHt := dh,
          capStyle := "round", joinStyle := "round",
          cmds := composeScene dw scene },
       [ReaderEvent.read headerLength, ReaderEvent.readRest])

instance {ε α : Type} [DecidableEq ε] [DecidableEq α] :
    DecidableEq (Except ε α) := fun a b =>
  match a, b with
  | Except.error e, Except.error f =>
    if h : e = f then isTrue (by rw [h])
    else isFalse (by intro hh; injection hh; exact h (by assumption))
  | Except.error _, Except.ok _ => isFalse (by intro hh; injection hh)
  | Except.ok _, Except.error _ => isFalse (by intro hh; injection hh)
  | Except.ok u, Except.ok v =>
    if h : u = v then isTrue (by rw [h])
    else isFalse (by intro hh; injection hh; exact h (by assumption))

/-- Result of `RenderCustom`: the returned error (or success), the documents
written to the output sink (`pdf.Output(output)` records the finished `Pdf`
whose serialized bytes go to the sink), and the trace of operations performed
on the input reader. -/
structure RenderCustomResult where
  ret : Except Err Unit
  outputWrites : List Pdf
  readerEvents : List ReaderEvent
deriving DecidableEq, Repr

/-- `RenderCustom(reader, output)`: nil-check both arguments, run
`parseSceneFile`, then `pdf.Output(output)`.  The reader is `none` when the
Go `reader` is nil, likewise `output`; `outputRes` is whether the write of the
finished document to the sink succeeds. -/
def renderCustom (extractScene : List Byte → Except Err Scene) (dw dh : ℚ)
    (reader : Option (List Byte)) (output : Option Unit)
    (outputRes : Except Err Unit) : RenderCustomResult :=
  match output, reader with
  | none, _ =>
    { ret := Except.error (Err.msg "reader or writer were nil"),
      outputWrites := [], readerEvents := [] }
  | some _, none =>
    { ret := Except.error (Err.msg "reader or writer were nil"),
      outputWrites := [], readerEvents := [] }
  | some _, some file =>
    match parseSceneFile extractScene dw dh file with
    | (Except.error e, evs) =>
      { ret := Except.error e, outputWrites := [], readerEvents := evs }
    | (Except.ok pdf, evs) =>
      match outputRes with
      | Except.error e =>
        { ret := Except.error e, outputWrites := [pdf], readerEvents := evs }
      | Except.ok _ =>
        { ret := Except.ok (), outputWrites := [pdf], readerEvents := evs }

/-- Operations `RenderPoundifdef` performs on the output file it creates with
`os.Create`: creation, the external render call writing into it, closing it,
and `Seek(off, whence)`. -/
inductive WriterEvent where
  | created
  | rendered
  | closed
  | seeked (off : Int) (whence : Int)
deriving DecidableEq, Repr

/-- Result of `RenderPoundifdef`: `ret = Except.ok ()` means the (open,
rewound) writer handle was returned to the caller, and the trace of events on
the created output file. -/
structure PoundifdefResult where
  ret : Except Err Unit
  writerEvents : List WriterEvent
deriving DecidableEq, Repr

/-- `RenderPoundifdef`: open the input zip (closed via `defer`), `os.Create`
the output, run the external notebook renderer, rewind with `Seek(0, 0)`, and
return the open writer.  Each external step's outcome is a parameter; each
failure branch wraps the cause with `fmt.Errorf("... %w", err)`. -/
def renderPoundifdef (openRes createRes renderRes seekRes : Except Err Unit) :
    PoundifdefResult :=
  match openRes with
  | Except.error e =>
    { ret := Except.error (Err.wrap "can\x27t open file" e), writerEvents := [] }
  | Except.ok _ =>
    match createRes with
    | Except.error e =>
      { ret := Except.error (Err.wrap "can\x27t create outputfile" e),
        writerEvents := [] }
    | Except.ok _ =>
      match renderRes with
      | Except.error e =>
        { ret := Except.error (Err.wrap "can\x27t render file" e),
          writerEvents := [WriterEvent.created, WriterEvent.rendered,
                           WriterEvent.closed] }
      | Except.ok _ =>
        match seekRes with
        | Except.error e =>
          { ret := Except.error (Err.wrap "can\x27t rewind file" e),
            writerEvents := [WriterEvent.created, WriterEvent.rendered,
                             WriterEvent.closed] }
        | Except.ok _ =>
          { ret := Except.ok (),
            writerEvents := [WriterEvent.created, WriterEvent.rendered,
                             WriterEvent.seeked 0 0] }

/-- `SeekCloser` wraps a `bytes.Reader`: the underlying byte slice and the
current read position. -/
structure SeekCloser where
  data : List Byte
  pos : Nat
deriving DecidableEq, Repr

/-- `NewSeekCloser(b)` wraps `bytes.NewReader(b)`, which starts at offset 0. -/
def NewSeekCloser (b : List Byte) : SeekCloser :=
  { data := b, pos := 0 }

/-- `(*SeekCloser).Close() error { return nil }`: returns no error and leaves
the stream untouched. -/
def SeekCloser.close (s : SeekCloser) : Except Err Unit × SeekCloser :=
  (Except.ok (), s)

/-- The bytes still readable from the stream's current position. -/
def SeekCloser.readable (s : SeekCloser) : List Byte :=
  s.data.drop s.pos

/-- Call `Close` on the stream `n` times, collecting the returned errors and
the final stream state. -/
def closes : Nat → SeekCloser → List (Except Err Unit) × SeekCloser
  | 0, s => ([], s)
  | n + 1, s =>
    let step := s.close
    let rest := closes n step.2
    (step.1 :: rest.1, rest.2)

/-! ### Spec-side helpers

These definitions follow the spec's words; the claim theorems compare the
embedded code against them. -/

/-- The ordered list of adjacent point pairs `(prev, curr)` of a list. -/
def adjacentPairs {α : Type} : List α → List (α × α)
  | a :: b :: rest => (a, b) :: adjacentPairs (b :: rest)
  | _ => []

/-- The spec's fixed affine map: device-space `x' = x + pageWidth/2`,
`y' = y`. -/
def specAffineMap (pageWidth : ℚ) (p : ℚ × ℚ) : ℚ × ℚ :=
  (p.1 + pageWidth / 2, p.2)

/-- The commands one segment `(prev, curr)` contributes: width from the
current point scaled by `1.0 / 5`, endpoints shifted by `dw / 2` in x. -/
def segCmds (dw : ℚ) (pc : PenPoint × PenPoint) : List PdfCmd :=
  [PdfCmd.setLineWidth (pc.2.width * 1 / 5),
   PdfCmd.line (pc.1.x + dw / 2) pc.1.y (pc.2.x + dw / 2) pc.2.y]

/-- The line-draw commands among a command list (the `pdf.Line` calls). -/
def lineCmds (cmds : List PdfCmd) : List PdfCmd :=
  cmds.filter fun c =>
    match c with
    | PdfCmd.line _ _ _ _ => true
    | _ => false

/-- The successive stroke widths set by a command list. -/
def segWidths (cmds : List PdfCmd) : List ℚ :=
  cmds.filterMap fun c =>
    match c with
    | PdfCmd.setLineWidth w => some w
    | _ => none

/-- The spec's scenario: one line of three points
`(0,0,w=2), (10,0,w=4), (10,10,w=4)` (pressure immaterial). -/
def scenarioPoints : List PenPoint :=
  [{ x := 0, y := 0, width := 2, pressure := 0 },
   { x := 10, y := 0, width := 4, pressure := 0 },
   { x := 10, y := 10, width := 4, pressure := 0 }]

/-! ### Helper lemmas -/

theorem composeLineAux_some (dw : ℚ) (p : PenPoint) (pts : List PenPoint) :
    composeLineAux dw (some p) pts =
      (adjacentPairs (p :: pts)).flatMap (segCmds dw) := by
  induction pts generalizing p with
  | nil => simp [composeLineAux, adjacentPairs]
  | cons q rest ih =>
    simp [composeLineAux, adjacentPairs, segCmds, ih q]

theorem composeLine_eq_pairs (dw : ℚ) (pts : List PenPoint) :
    composeLine dw pts = (adjacentPairs pts).flatMap (segCmds dw) := by
  cases pts with
  | nil => simp [composeLine, composeLineAux, adjacentPairs]
  | cons p rest =>
    show composeLineAux dw none (p :: rest) = _
    rw [composeLineAux]
    exact composeLineAux_some dw p rest

theorem adjacentPairs_length {α : Type} (l : List α) :
    (adjacentPairs l).length = l.length - 1 := by
  induction l with
  | nil => simp [adjacentPairs]
  | cons a t ih =>
    cases t with
    | nil => simp [adjacentPairs]
    | cons b r =>
      simp only [adjacentPairs, List.length_cons] at ih ⊢
      omega

theorem adjacentPairs_map {α β : Type} (g : α → β) (l : List α) :
    adjacentPairs (l.map g) = (adjacentPairs l).map fun pc => (g pc.1, g pc.2) := by
  induction l with
  | nil => simp [adjacentPairs]
  | cons a t ih =>
    cases t with
    | nil => simp [adjacentPairs]
    | cons b r =>
      have ih2 : adjacentPairs (g b :: List.map g r) =
          (adjacentPairs (b :: r)).map fun pc => (g pc.1, g pc.2) := by
        simpa using ih
      simp [adjacentPairs, ih2]

theorem lineCmds_flatMap_segCmds (dw : ℚ) (l : List (PenPoint × PenPoint)) :
    lineCmds (l.flatMap (segCmds dw)) =
      l.map fun pc =>
        PdfCmd.line (pc.1.x + dw / 2) pc.1.y (pc.2.x + dw / 2) pc.2.y := by
  induction l with
  | nil => simp [lineCmds]
  | cons pc rest ih =>
    simp [lineCmds, segCmds, List.filter_append] at ih ⊢
    exact ih

theorem segWidths_flatMap_segCmds (dw : ℚ) (l : List (PenPoint × PenPoint)) :
    segWidths (l.flatMap (segCmds dw)) = l.map fun pc => pc.2.width * 1 / 5 := by
  induction l with
  | nil => simp [segWidths]
  | cons pc rest ih =>
    simp [segWidths, segCmds, List.filterMap_append] at ih ⊢
    exact ih

theorem closes_eq (n : Nat) (s : SeekCloser) :
    closes n s = (List.replicate n (Except.ok ()), s) := by
  induction n with
  | zero => simp [closes]
  | succ k ih => simp [closes, SeekCloser.close, ih, List.replicate_succ]

theorem adjacentPairs_short {α : Type} (l : List α) (h : l.length ≤ 1) :
    adjacentPairs l = [] := by
  cases l with
  | nil => rfl
  | cons a t =>
    cases t with
    | nil => rfl
    | cons b r => simp at h

theorem lineCmds_flatMap {α : Type} (f : α → List PdfCmd) (l : List α) :
    lineCmds (l.flatMap f) = l.flatMap fun a => lineCmds (f a) := by
  induction l with
  | nil => simp [lineCmds]
  | cons a t ih => simp [lineCmds, List.filter_append] at ih ⊢; exact ih

/-! ### Claim theorems -/

/-- C1, counterexample: on the spec's own scenario (three points of widths
2, 4, 4 on a page of width 100) the widths set for the two segments are not
the leading points' widths times the scale factor 1.0 (which would be
`[2, 4]`); the code sets `[4/5, 4/5]`. -/
theorem segment_width_claim_cex :
    segWidths (composeLine 100 scenarioPoints) ≠
      (adjacentPairs scenarioPoints).map fun pc => pc.1.width * 1 := by
  norm_num [scenarioPoints, composeLine, composeLineAux, segWidths,
    adjacentPairs, List.filterMap_cons]

/-- C1, amended: for every Line and adjacent pair `(prev, curr)`, the stroke
width set for the segment is `curr.width * 1.0 / 5` — the width of the
trailing (current) point, with the fixed scale factor 1.0 and the constant
division by 5 — and pressure is never applied: changing every point's
pressure arbitrarily leaves the emitted commands unchanged. -/
theorem segment_width_from_current_point (dw : ℚ) (pts : List PenPoint) :
    segWidths (composeLine dw pts) =
      ((adjacentPairs pts).map fun pc => pc.2.width * 1 / 5) ∧
    ∀ f : PenPoint → ℚ,
      composeLine dw (pts.map fun p =>
        { x := p.x, y := p.y, width := p.width, pressure := f p }) =
      composeLine dw pts := by
  constructor
  · rw [composeLine_eq_pairs, segWidths_flatMap_segCmds]
  · intro f
    rw [composeLine_eq_pairs, composeLine_eq_pairs, adjacentPairs_map]
    induction adjacentPairs pts with
    | nil => simp
    | cons pc rest ih => simp [segCmds] at ih ⊢; exact ih

/-- C2: every line-draw command emitted by the stroke composer has both of
its endpoints transformed by the fixed affine map
`x' = x + pageWidth / 2, y' = y` (here `specAffineMap`): the emitted
line-draw commands are exactly, in traversal order, the segments of the scene
with both endpoints mapped through `specAffineMap dw`. -/
theorem segment_endpoints_affine_transformed (dw : ℚ) (scene : Scene) :
    lineCmds (composeScene dw scene) =
      scene.layers.flatMap fun layer =>
        layer.lines.flatMap fun l =>
          (adjacentPairs l.points).map fun pc =>
            PdfCmd.line (specAffineMap dw (pc.1.x, pc.1.y)).1
                        (specAffineMap dw (pc.1.x, pc.1.y)).2
                        (specAffineMap dw (pc.2.x, pc.2.y)).1
                        (specAffineMap dw (pc.2.x, pc.2.y)).2 := by
  unfold composeScene composeLayer
  rw [lineCmds_flatMap]
  refine List.flatMap_congr ?_
  intro layer _
  rw [lineCmds_flatMap]
  refine List.flatMap_congr ?_
  intro l _
  rw [composeLine_eq_pairs, lineCmds_flatMap_segCmds]
  simp [specAffineMap]

/-- C3: a Line with 0 or 1 points contributes no draw commands; a Line with
N points contributes exactly N−1 line-draw commands, in traversal order (one
per adjacent pair, in order, and layers/lines contribute via order-preserving
concatenation); an empty Layer is a no-op; and whenever the decoder succeeds
the whole of `parseSceneFile` returns the composed document with no error. -/
theorem compose_draw_command_count (dw dh : ℚ) (pts : List PenPoint)
    (layer : Layer) (scene : Scene)
    (dec : List Byte → Except Err Scene) (file : List Byte) :
    (pts.length ≤ 1 → composeLine dw pts = []) ∧
    (lineCmds (composeLine dw pts)).length = pts.length - 1 ∧
    lineCmds (composeLine dw pts) =
      ((adjacentPairs pts).map fun pc =>
        PdfCmd.line (pc.1.x + dw / 2) pc.1.y (pc.2.x + dw / 2) pc.2.y) ∧
    composeScene dw scene =
      (scene.layers.flatMap fun la => la.lines.flatMap fun l =>
        composeLine dw l.points) ∧
    (layer.lines = [] → composeLayer dw layer = []) ∧
    (headerLength ≤ file.length → dec (file.drop headerLength) = Except.ok scene →
      (parseSceneFile dec dw dh file).1 =
        Except.ok { sizeWd := dw, sizeHt := dh, capStyle := "round",
                    joinStyle := "round", cmds := composeScene dw scene }) := by
  have hpairs : lineCmds (composeLine dw pts) =
      (adjacentPairs pts).map fun pc =>
        PdfCmd.line (pc.1.x + dw / 2) pc.1.y (pc.2.x + dw / 2) pc.2.y := by
    rw [composeLine_eq_pairs, lineCmds_flatMap_segCmds]
  refine ⟨?_, ?_, hpairs, ?_, ?_, ?_⟩
  · intro h
    rw [composeLine_eq_pairs, adjacentPairs_short pts h]
    rfl
  · rw [hpairs, List.length_map, adjacentPairs_length]
  · rfl
  · intro h
    simp [composeLayer, h]
  · intro hlen hdec
    have hnot : ¬ file.length < headerLength := by omega
    simp [parseSceneFile, readFull, hnot, hdec]

/-- C3, witness: the theorem applied at a one-point line (no commands) and at
a concrete 43-byte input with a decoder succeeding on an empty scene. -/
theorem compose_draw_command_count_witness :
    composeLine 100 [{ x := 0, y := 0, width := 2, pressure := 0 }] = [] ∧
    (parseSceneFile (fun _ => Except.ok { layers := [] }) 100 100
        (List.replicate headerLength 0)).1 =
      Except.ok { sizeWd := 100, sizeHt := 100, capStyle := "round",
                  joinStyle := "round",
                  cmds := composeScene 100 { layers := [] } } := by
  constructor
  · exact (compose_draw_command_count 100 100
      [{ x := 0, y := 0, width := 2, pressure := 0 }] { lines := [] }
      { layers := [] } (fun _ => Except.ok { layers := [] })
      (List.replicate headerLength 0)).1 (by decide)
  · exact (compose_draw_command_count 100 100
      [{ x := 0, y := 0, width := 2, pressure := 0 }] { lines := [] }
      { layers := [] } (fun _ => Except.ok { layers := [] })
      (List.replicate headerLength 0)).2.2.2.2.2 (by simp) rfl

/-- C4, counterexample: with a decoder rejecting the body of a 43-byte input
with error `decode "corrupt"`, ingestion returns that very error value; it
does not return a new error wrapping the decoder's error as its cause. -/
theorem malformed_scene_not_wrapped_cex :
    (parseSceneFile (fun _ => Except.error (Err.decode "corrupt")) 100 100
        (List.replicate headerLength 0)).1 =
      Except.error (Err.decode "corrupt") ∧
    ¬ ∃ m : String,
      (parseSceneFile (fun _ => Except.error (Err.decode "corrupt")) 100 100
          (List.replicate headerLength 0)).1 =
        Except.error (Err.wrap m (Err.decode "corrupt")) := by
  constructor
  · simp [parseSceneFile, readFull]
  · rintro ⟨m, h⟩
    simp [parseSceneFile, readFull] at h

/-- C4, amended: when the external scene decoder rejects the body (any decode
failure on input that passed the preamble-length check), ingestion returns
the decoder's error itself, propagated unchanged — this propagated error is
the MalformedScene failure; no wrapping error is added around it. -/
theorem decoder_error_propagated_unchanged
    (dec : List Byte → Except Err Scene) (dw dh : ℚ) (file : List Byte)
    (e : Err) (hlen : headerLength ≤ file.length)
    (hdec : dec (file.drop headerLength) = Except.error e) :
    (parseSceneFile dec dw dh file).1 = Except.error e := by
  have hnot : ¬ file.length < headerLength := by omega
  simp [parseSceneFile, readFull, hnot, hdec]

/-- C4, witness: the amended theorem at a concrete 43-byte input and a
concretely failing decoder. -/
theorem decoder_error_propagated_unchanged_witness :
    (parseSceneFile (fun _ => Except.error (Err.decode "boom")) 100 100
        (List.replicate headerLength 0)).1 =
      Except.error (Err.decode "boom") :=
  decoder_error_propagated_unchanged
    (fun _ => Except.error (Err.decode "boom")) 100 100
    (List.replicate headerLength 0) (Err.decode "boom") (by simp) rfl

/-- C5, counterexample: on the all-success path `RenderPoundifdef` hands the
created output file back to the caller rewound but open: `Close` is not
called on it, contradicting "closed on every exit path (success or
failure)". -/
theorem fulldoc_success_writer_not_closed_cex :
    (renderPoundifdef (Except.ok ()) (Except.ok ()) (Except.ok ())
        (Except.ok ())).ret = Except.ok () ∧
    WriterEvent.closed ∉
      (renderPoundifdef (Except.ok ()) (Except.ok ()) (Except.ok ())
          (Except.ok ())).writerEvents := by
  refine ⟨rfl, ?_⟩
  simp [renderPoundifdef]

/-- C5, amended: the created file-backed output resource is closed on every
failure exit path (every failure after its creation), and on success it is
rewound to its start with `Seek(0, 0)` and returned to the caller still open
(ownership of the handle transfers; the caller closes it). -/
theorem fulldoc_writer_lifecycle (o c r s : Except Err Unit) :
    (∀ e, (renderPoundifdef o c r s).ret = Except.error e →
      WriterEvent.created ∈ (renderPoundifdef o c r s).writerEvents →
      WriterEvent.closed ∈ (renderPoundifdef o c r s).writerEvents) ∧
    ((renderPoundifdef o c r s).ret = Except.ok () →
      (renderPoundifdef o c r s).writerEvents =
        [WriterEvent.created, WriterEvent.rendered, WriterEvent.seeked 0 0]) := by
  cases o <;> cases c <;> cases r <;> cases s <;> simp [renderPoundifdef]

/-- C5, witness: a failing render call leads to the file being closed, and the
all-success run ends with create, render, rewind. -/
theorem fulldoc_writer_lifecycle_witness :
    WriterEvent.closed ∈
      (renderPoundifdef (Except.ok ()) (Except.ok ())
          (Except.error Err.eof) (Except.ok ())).writerEvents ∧
    (renderPoundifdef (Except.ok ()) (Except.ok ()) (Except.ok ())
        (Except.ok ())).writerEvents =
      [WriterEvent.created, WriterEvent.rendered, WriterEvent.seeked 0 0] := by
  constructor
  · exact (fulldoc_writer_lifecycle (Except.ok ()) (Except.ok ())
      (Except.error Err.eof) (Except.ok ())).1
      (Err.wrap "can\x27t render file" Err.eof) rfl (by simp [renderPoundifdef])
  · exact (fulldoc_writer_lifecycle (Except.ok ()) (Except.ok ())
      (Except.ok ()) (Except.ok ())).2 rfl

/-- C6: when ingestion or stroke composition (`parseSceneFile`) fails on the
custom single-page path, `RenderCustom` returns that error unchanged, and the
output sink has received no writes: the document is only written after
composition fully succeeds. -/
theorem custom_path_error_no_output
    (dec : List Byte → Except Err Scene) (dw dh : ℚ) (file : List Byte)
    (outputRes : Except Err Unit) (e : Err)
    (h : (parseSceneFile dec dw dh file).1 = Except.error e) :
    renderCustom dec dw dh (some file) (some ()) outputRes =
      { ret := Except.error e, outputWrites := [],
        readerEvents := (parseSceneFile dec dw dh file).2 } := by
  rcases hpe : parseSceneFile dec dw dh file with ⟨res, evs⟩
  rw [hpe] at h
  simp only at h
  subst h
  simp [renderCustom, hpe]

/-- C6, witness: the theorem at a concretely failing decoder. -/
theorem custom_path_error_no_output_witness :
    renderCustom (fun _ => Except.error (Err.decode "boom")) 100 100
        (some (List.replicate headerLength 0)) (some ()) (Except.ok ()) =
      { ret := Except.error (Err.decode "boom"), outputWrites := [],
        readerEvents :=
          (parseSceneFile (fun _ => Except.error (Err.decode "boom")) 100 100
              (List.replicate headerLength 0)).2 } :=
  custom_path_error_no_output (fun _ => Except.error (Err.decode "boom"))
    100 100 (List.replicate headerLength 0) (Except.ok ())
    (Err.decode "boom") (by simp [parseSceneFile, readFull])

/-- C7: every input shorter than the 43-byte preamble makes ingestion fail
with the TruncatedInput category (a short read of `io.ReadFull`), and the
decoder is never invoked — the outcome is identical for any two decoders; for
inputs of at least 43 bytes the first 43 bytes are discarded without any
interpretation or validation — the outcome depends only on the bytes after
the preamble. -/
theorem preamble_truncation_and_skip
    (dec1 dec2 : List Byte → Except Err Scene) (dw dh : ℚ)
    (file file2 : List Byte) :
    (file.length < headerLength →
      (∃ e, (parseSceneFile dec1 dw dh file).1 = Except.error e ∧
        e.isTruncatedInput) ∧
      parseSceneFile dec1 dw dh file = parseSceneFile dec2 dw dh file) ∧
    (headerLength ≤ file.length → headerLength ≤ file2.length →
      file.drop headerLength = file2.drop headerLength →
      parseSceneFile dec1 dw dh file = parseSceneFile dec1 dw dh file2) := by
  constructor
  · intro h
    constructor
    · refine ⟨if file.length = 0 then Err.eof else Err.unexpectedEOF, ?_, ?_⟩
      · simp [parseSceneFile, readFull, h]
      · unfold Err.isTruncatedInput
        split
        · exact Or.inl rfl
        · exact Or.inr rfl
    · simp [parseSceneFile, readFull, h]
  · intro h1 h2 hdrop
    have hn1 : ¬ file.length < headerLength := by omega
    have hn2 : ¬ file2.length < headerLength := by omega
    simp [parseSceneFile, readFull, hn1, hn2, hdrop]

/-- C7, witness: a 3-byte input fails as truncated, and two 44-byte inputs
with different preambles but the same body give identical results. -/
theorem preamble_truncation_and_skip_witness :
    (∃ e, (parseSceneFile (fun _ => Except.ok { layers := [] }) 100 100
        [0, 1, 2]).1 = Except.error e ∧ e.isTruncatedInput) ∧
    parseSceneFile (fun _ => Except.ok { layers := [] }) 100 100
        (List.replicate headerLength 0 ++ [9]) =
      parseSceneFile (fun _ => Except.ok { layers := [] }) 100 100
        (List.replicate headerLength 1 ++ [9]) := by
  constructor
  · exact ((preamble_truncation_and_skip
      (fun _ => Except.ok { layers := [] })
      (fun _ => Except.ok { layers := [] }) 100 100 [0, 1, 2] []).1
      (by norm_num [headerLength])).1
  · exact (preamble_truncation_and_skip
      (fun _ => Except.ok { layers := [] })
      (fun _ => Except.ok { layers := [] }) 100 100
      (List.replicate headerLength 0 ++ [9])
      (List.replicate headerLength 1 ++ [9])).2
      (by simp) (by simp) (by simp)

/-- C8: calling `RenderCustom` with a nil reader or a nil output fails with
the InvalidArguments error before any I/O: no reader operation and no output
write happens. -/
theorem nil_args_rejected_immediately
    (dec : List Byte → Except Err Scene) (dw dh : ℚ)
    (reader : Option (List Byte)) (output : Option Unit)
    (outputRes : Except Err Unit) (h : reader = none ∨ output = none) :
    renderCustom dec dw dh reader output outputRes =
      { ret := Except.error (Err.msg "reader or writer were nil"),
        outputWrites := [], readerEvents := [] } := by
  rcases h with h | h
  · subst h; cases output <;> rfl
  · subst h; rfl

/-- C8, witness: the theorem at a nil reader. -/
theorem nil_args_rejected_immediately_witness :
    renderCustom (fun _ => Except.ok { layers := [] }) 100 100 none (some ())
        (Except.ok ()) =
      { ret := Except.error (Err.msg "reader or writer were nil"),
        outputWrites := [], readerEvents := [] } :=
  nil_args_rejected_immediately (fun _ => Except.ok { layers := [] }) 100 100
    none (some ()) (Except.ok ()) (Or.inl rfl)

/-- C9: the stream the adapter produces over `b` starts at the beginning of
`b` (position 0, all of `b` readable), and calling `Close` any number of
times returns no error and leaves the stream — hence its readable contents —
unchanged. -/
theorem seekcloser_start_zero_close_noop (b : List Byte) (n : Nat) :
    (NewSeekCloser b).pos = 0 ∧
    (NewSeekCloser b).readable = b ∧
    closes n (NewSeekCloser b) =
      (List.replicate n (Except.ok ()), NewSeekCloser b) := by
  exact ⟨rfl, by simp [SeekCloser.readable, NewSeekCloser], closes_eq n _⟩

/-- C10: on every invocation of `RenderCustom` — success or failure, nil or
not — `Close` is never among the operations performed on the input reader:
the caller retains ownership.  (The decoder receives the reader as a plain
`io.Reader`, which exposes no `Close`.) -/
theorem reader_never_closed
    (dec : List Byte → Except Err Scene) (dw dh : ℚ)
    (reader : Option (List Byte)) (output : Option Unit)
    (outputRes : Except Err Unit) :
    ReaderEvent.close ∉
      (renderCustom dec dw dh reader output outputRes).readerEvents := by
  cases output with
  | none => simp [renderCustom]
  | some u =>
    cases reader with
    | none => simp [renderCustom]
    | some file =>
      cases h1 : readFull headerLength file with
      | error e => simp [renderCustom, parseSceneFile, h1]
      | ok pr =>
        obtain ⟨buf, rest⟩ := pr
        cases h2 : dec rest with
        | error e => simp [renderCustom, parseSceneFile, h1, h2]
        | ok scene =>
          cases outputRes <;> simp [renderCustom, parseSceneFile, h1, h2]

end RmRender
